import Mathlib

/-!
Verification of the orion-equatorial telescope drive controller
(`src/orion-equatorial.ino`) against its design specification.

The sketch is embedded shallowly:
* `unsigned long` arithmetic is `Nat` taken modulo `UL = 2^32`;
* `dispTime` becomes a pure function from the input duration and the
  `LastTimeDisp` static buffer to the new buffer plus an optional physical
  display write;
* `loop` becomes a step function on a record `SysState` holding the statics
  of `loop` (`lastButtonReading`, `stopTime`, `state`), the globals
  (`steppingOn`, `debugTimeMult`), the motor-driver enable pin level and the
  `LastTimeDisp` buffer.  Button readings and raw `millis()` readings are the
  per-cycle inputs; every `myMillis()` call inside one body execution is
  modelled as reading the same raw `millis()` value.
-/

namespace Orion

/-- Modulus of `unsigned long` arithmetic on the target (32-bit). -/
def UL : Nat := 2 ^ 32

/-- Wrapping unsigned 32-bit subtraction `a - b`; callers pass `a b < UL`. -/
def usub (a b : Nat) : Nat := (a + UL - b % UL) % UL

/-- `#define MAX_DURATION_MSEC 3000000` (line 81). -/
def MAX_DURATION_MSEC : Nat := 3000000

/-- `myMillis()` (lines 140-143): `millis() * debugTimeMult` in `unsigned long`
arithmetic.  `millisVal` is the raw `millis()` reading. -/
def myMillis (millisVal debugTimeMult : Nat) : Nat :=
  (millisVal * debugTimeMult) % UL

/-- The `digitToSegment` table of the TM1637 display library used by
`tm1637.encodeDigit` (hex digits 0-F, segment masks `XGFEDCBA`). -/
def digitToSegment : List Nat :=
  [0x3f, 0x06, 0x5b, 0x4f, 0x66, 0x6d, 0x7d, 0x07,
   0x7f, 0x6f, 0x77, 0x7c, 0x39, 0x5e, 0x79, 0x71]

/-- `TM1637Display::encodeDigit(digit)`: `digitToSegment[digit & 0x0f]`. -/
def encodeDigit (digit : Nat) : Nat := digitToSegment.getD (digit % 16) 0

/-- The raw (unencoded) 4-cell digit pattern `TimeDisp` computed by
`dispTime` before the `memcmp` (lines 160-176):
`secTime = (msecTime + 999) / 1000` in `unsigned long`; durations of
`6000000` ms or more display as zero minutes and seconds. -/
def timeDigits (msecTime : Nat) : List Nat :=
  let secTime := ((msecTime + 999) % UL) / 1000
  let second := if 6000000 ≤ msecTime then 0 else secTime % 60
  let minute := if 6000000 ≤ msecTime then 0 else secTime / 60
  [minute / 10, minute % 10, second / 10, second % 10]

/-- Result of one `dispTime` call: the new contents of the static
`LastTimeDisp` buffer, and the byte vector written to the physical display by
`tm1637.setSegments` (or `none` when the call performs no write). -/
structure DispEffect where
  newLast : List Nat
  written : Option (List Nat)
deriving Repr, DecidableEq

/-- `dispTime(msecTime)` (lines 153-186).  The raw digit pattern is compared
(`memcmp`) against the static buffer `LastTimeDisp`; on inequality the digits
are encoded in place (the second cell also gets the `0x80` separator bit),
written to the display, and the *encoded* bytes are copied (`memcpy`) into
`LastTimeDisp`. -/
def dispTime (msecTime : Nat) (lastTimeDisp : List Nat) : DispEffect :=
  let timeDisp := timeDigits msecTime
  if timeDisp ≠ lastTimeDisp then
    let enc := [encodeDigit (timeDisp.getD 0 0),
                encodeDigit (timeDisp.getD 1 0) ||| 0x80,
                encodeDigit (timeDisp.getD 2 0),
                encodeDigit (timeDisp.getD 3 0)]
    ⟨enc, some enc⟩
  else
    ⟨lastTimeDisp, none⟩

/-- Initial contents of `LastTimeDisp`: `static int8_t LastTimeDisp[4] =
{0,0,0,0};` (line 157). -/
def LastTimeDispInit : List Nat := [0, 0, 0, 0]

/-- Modelled from the spec (§4.3 countdown mode): minutes = `⌈d/1000⌉ / 60`
(integer division), seconds = `⌈d/1000⌉ mod 60`, each shown as two zero-padded
decimal digit cells.  `(d + 1000 - 1) / 1000` is `⌈d/1000⌉` on naturals. -/
def specCountdownDigits (d : Nat) : List Nat :=
  let totalSeconds := (d + 1000 - 1) / 1000
  let minutes := totalSeconds / 60
  let seconds := totalSeconds % 60
  [minutes / 10, minutes % 10, seconds / 10, seconds % 10]

/-- `#define ST_INIT 0` (line 189). -/
def ST_INIT : Nat := 0
/-- `#define ST_IDLE 1` (line 190). -/
def ST_IDLE : Nat := 1
/-- `#define ST_HOLD 2` (line 191). -/
def ST_HOLD : Nat := 2
/-- `#define ST_RUN 3` (line 192). -/
def ST_RUN : Nat := 3

/-- The mutable state of the sketch: the globals `steppingOn` and
`debugTimeMult`, the statics of `loop` (`lastButtonReading`, `stopTime`,
`state`), the static `LastTimeDisp` buffer of `dispTime`, and the level of
the motor-driver `STEPPER_ENABLE_PIN` (`true` = HIGH; the pin is active-low,
so HIGH de-energizes the motor). -/
structure SysState where
  lastButtonReading : Bool
  stopTime : Nat
  state : Nat
  steppingOn : Bool
  stepperEnableHigh : Bool
  lastTimeDisp : List Nat
  debugTimeMult : Nat
deriving Repr, DecidableEq

/-- `setup()` together with the static/global initializers (lines 87, 97,
157, 200-202, 99-118).  `bootButtonLevel` is the raw `digitalRead` of the
mode button during `setup` (`true` = HIGH = released; the button is wired
active-low with a pull-up): reading low selects `debugTimeMult = 60`.
`stopTime` is a zero-initialized static; `lastButtonReading` is statically
initialized to `0`; `setup` drives `STEPPER_ENABLE_PIN` HIGH. -/
def setup (bootButtonLevel : Bool) : SysState :=
  { lastButtonReading := false
    stopTime := 0
    state := ST_INIT
    steppingOn := false
    stepperEnableHigh := true
    lastTimeDisp := LastTimeDispInit
    debugTimeMult := if bootButtonLevel = false then 60 else 1 }

/-- The `switch (state)` transition computation of `loop` (lines 221-247):
returns `newState`. -/
def nextState (state : Nat) (buttonWasPressed : Bool) (nowT stopTime : Nat) :
    Nat :=
  if state = ST_INIT then ST_IDLE
  else if state = ST_IDLE then (if buttonWasPressed then ST_HOLD else state)
  else if state = ST_HOLD then (if buttonWasPressed then ST_RUN else state)
  else if state = ST_RUN then
    (if buttonWasPressed || decide (stopTime ≤ nowT) then ST_IDLE else state)
  else state

/-- The `switch (newState)` transition-action block of `loop`
(lines 250-274), executed only when `state != newState`.  Entering Run calls
`dispTime(MAX_DURATION_MSEC)` and arms `stopTime = myMillis() +
MAX_DURATION_MSEC` (`nowT` is that `myMillis()` value).  The fixed Idle/Hold
glyph writes (`tm1637.setSegments(IdleDisp/HoldDisp)`) do not touch
`LastTimeDisp`, so they leave the modelled state unchanged apart from the
enable pin and `steppingOn`. -/
def applyTransition (s : SysState) (newState nowT : Nat) : SysState :=
  if newState = ST_IDLE then
    { s with stepperEnableHigh := true, steppingOn := false }
  else if newState = ST_HOLD then
    { s with steppingOn := false, stepperEnableHigh := false }
  else if newState = ST_RUN then
    { s with lastTimeDisp := (dispTime MAX_DURATION_MSEC s.lastTimeDisp).newLast
             steppingOn := true
             stepperEnableHigh := false
             stopTime := (nowT + MAX_DURATION_MSEC) % UL }
  else s

/-- One execution of the body of `loop()` (lines 197-286).
`buttonReading` is this cycle's `digitalRead(MODE_BUTTON_PIN)` (`true` =
HIGH = released); `millisVal` is the raw `millis()` value, assumed constant
across the `myMillis()` calls of one body execution.  A press-edge
(`buttonWasPressed`) is a low reading following a stored high reading.
While in Run the body re-renders the countdown with
`dispTime(stopTime - myMillis())` (wrapping unsigned subtraction). -/
def loop (s : SysState) (buttonReading : Bool) (millisVal : Nat) : SysState :=
  let buttonWasPressed := !buttonReading && s.lastButtonReading
  let nowT := myMillis millisVal s.debugTimeMult
  let newState := nextState s.state buttonWasPressed nowT s.stopTime
  let s1 :=
    if s.state ≠ newState then
      { applyTransition s newState nowT with state := newState }
    else s
  let s2 := { s1 with lastButtonReading := buttonReading }
  if s2.state = ST_RUN then
    { s2 with
      lastTimeDisp := (dispTime (usub s2.stopTime nowT) s2.lastTimeDisp).newLast }
  else s2

/-- Iterated control cycles fed from an input stream `f`:
`f n = (buttonReading, millisVal)` for cycle `n`. -/
def iterate (s : SysState) (f : Nat → Bool × Nat) : Nat → SysState
  | 0 => s
  | n + 1 => loop (iterate s f n) (f n).1 (f n).2

/-- Iterated control cycles over a finite input list. -/
def runList (s : SysState) (inputs : List (Bool × Nat)) : SysState :=
  inputs.foldl (fun st i => loop st i.1 i.2) s

/-- A state is reachable when some boot button level and some finite input
sequence drive the system from `setup` to it. -/
def Reachable (s : SysState) : Prop :=
  ∃ (bootButtonLevel : Bool) (inputs : List (Bool × Nat)),
    runList (setup bootButtonLevel) inputs = s

/-- The successor of a state in the operational cycle
`Idle → Hold → Run → Idle`. -/
def cycleNext (st : Nat) : Nat :=
  if st = ST_IDLE then ST_HOLD
  else if st = ST_HOLD then ST_RUN
  else ST_IDLE

/-- Inductive invariant of the control loop: the state code is one of the
four declared states, a press-edge can never be observed while still in
`ST_INIT` (the static `lastButtonReading` starts at `0`), `steppingOn`
tracks Run exactly, and the active-low enable pin is driven exactly in Hold
and Run. -/
def Inv (s : SysState) : Prop :=
  s.state ≤ 3 ∧
  (s.state = ST_INIT → s.lastButtonReading = false) ∧
  (s.steppingOn = true ↔ s.state = ST_RUN) ∧
  (s.stepperEnableHigh = false ↔ (s.state = ST_HOLD ∨ s.state = ST_RUN))

/-- A concrete Hold-phase state (press-edge pending, multiplier 1), used to
instantiate the Run-duration theorem. -/
def holdDemoState : SysState :=
  { lastButtonReading := true
    stopTime := 0
    state := ST_HOLD
    steppingOn := false
    stepperEnableHigh := false
    lastTimeDisp := LastTimeDispInit
    debugTimeMult := 1 }

/-- A concrete input stream: a press at raw time 0 on cycle 0, the button
still held (reading low, no new edge) at raw time 10 on cycle 1, then
released with the raw clock at 4000000 ms. -/
def demoInputs : Nat → Bool × Nat
  | 0 => (false, 0)
  | 1 => (false, 10)
  | _ + 2 => (true, 4000000)

/-! ### Display renderer claims -/

/-- Whenever `dispTime` issues a physical write, the written bytes are the
encoded digit pattern with the separator bit on the second cell. -/
lemma dispTime_written_eq (msecTime : Nat) (last w : List Nat)
    (hw : (dispTime msecTime last).written = some w) :
    w = [encodeDigit ((timeDigits msecTime).getD 0 0),
         encodeDigit ((timeDigits msecTime).getD 1 0) ||| 0x80,
         encodeDigit ((timeDigits msecTime).getD 2 0),
         encodeDigit ((timeDigits msecTime).getD 3 0)] := by
  simp only [dispTime] at hw
  split at hw
  · exact (Option.some.inj hw).symm
  · exact Option.noConfusion hw

/-- C1: evidence against change-suppression.  Two consecutive `dispTime`
calls with the same input (hence the same 4-digit time pattern) both issue a
physical display write: `LastTimeDisp` stores the *encoded* segment bytes
(the second cell even carries the `0x80` separator bit) while the `memcmp`
compares them against the *raw* digit values, so the comparison never finds
them equal once a write has happened. -/
theorem dispTime_second_identical_call_writes_again :
    (dispTime 5000 LastTimeDispInit).written.isSome = true ∧
    (dispTime 5000 (dispTime 5000 LastTimeDispInit).newLast).written.isSome
      = true := by
  decide

/-- C5: for every duration `d < 6000000` ms, the raw digit pattern computed
by `dispTime` agrees with the specification's countdown rendering —
minutes `= ⌈d/1000⌉ / 60` and seconds `= ⌈d/1000⌉ mod 60`, each split into
two zero-padded digit cells — and every physical write issued by
`dispTime d` carries the separator bit (`0x80`) on the second cell. -/
theorem dispTime_countdown_correct (d : Nat) (hd : d < 6000000) :
    timeDigits d = specCountdownDigits d ∧
    ∀ (last w : List Nat), (dispTime d last).written = some w →
      Nat.testBit (w.getD 1 0) 7 = true := by
  constructor
  · have h1 : ¬ (6000000 ≤ d) := by omega
    have h2 : (d + 999) % UL = d + 999 :=
      Nat.mod_eq_of_lt (by unfold UL; omega)
    have h3 : d + 1000 - 1 = d + 999 := by omega
    unfold timeDigits specCountdownDigits
    simp only [h1, if_false, h2, h3]
  · intro last w hw
    rw [dispTime_written_eq d last w hw]
    simp only [List.getD_cons_succ, List.getD_cons_zero]
    rw [Nat.testBit_lor]
    have h128 : Nat.testBit 0x80 7 = true := by decide
    simp [h128]

/-- Witness for C5 at `d = 754321` (12:35 remaining). -/
theorem dispTime_countdown_correct_witness :
    timeDigits 754321 = specCountdownDigits 754321 ∧
    Nat.testBit
      (((dispTime 754321 LastTimeDispInit).written.getD []).getD 1 0) 7
      = true :=
  ⟨(dispTime_countdown_correct 754321 (by decide)).1,
   (dispTime_countdown_correct 754321 (by decide)).2 LastTimeDispInit
     ((dispTime 754321 LastTimeDispInit).written.getD []) (by decide)⟩

/-- C6: every duration of at least `6000000` ms — including underflowed
"negative" remaining times represented in `unsigned long` — renders as the
all-zero pattern `00:00`, and any physical write it issues is the encoded
`00:00` (with the separator bit on the second cell), never computed minutes
and seconds. -/
theorem dispTime_expired_renders_zero (d : Nat) (hd : 6000000 ≤ d) :
    timeDigits d = [0, 0, 0, 0] ∧
    ∀ (last w : List Nat), (dispTime d last).written = some w →
      w = [0x3f, 0xbf, 0x3f, 0x3f] := by
  have hz : timeDigits d = [0, 0, 0, 0] := by
    unfold timeDigits
    simp only [hd, if_true]
  refine ⟨hz, ?_⟩
  intro last w hw
  rw [dispTime_written_eq d last w hw, hz]
  decide

/-- Witness for C6 at `d = 4294000000` (an underflowed remaining time). -/
theorem dispTime_expired_renders_zero_witness :
    timeDigits 4294000000 = [0, 0, 0, 0] ∧
    (dispTime 4294000000 [0x6d, 0xbf, 0x3f, 0x3f]).written.getD []
      = [0x3f, 0xbf, 0x3f, 0x3f] :=
  ⟨(dispTime_expired_renders_zero 4294000000 (by decide)).1,
   (dispTime_expired_renders_zero 4294000000 (by decide)).2
     [0x6d, 0xbf, 0x3f, 0x3f]
     ((dispTime 4294000000 [0x6d, 0xbf, 0x3f, 0x3f]).written.getD [])
     (by decide)⟩

/-- C10: the raw digit pattern is all zeros exactly for input `0` ms and for
inputs of at least `6000000` ms, and on the very first `dispTime` call after
boot such a pattern issues no physical write, because the statically
initialized `LastTimeDisp = {0,0,0,0}` compares equal to the raw digits. -/
theorem dispTime_first_call_zero_pattern_suppressed (m : Nat) :
    ((m = 0 ∨ 6000000 ≤ m) → timeDigits m = [0, 0, 0, 0]) ∧
    (timeDigits m = [0, 0, 0, 0] →
      (dispTime m LastTimeDispInit).written = none) ∧
    (m ≠ 0 → m < 6000000 → timeDigits m ≠ [0, 0, 0, 0]) := by
  refine ⟨?_, ?_, ?_⟩
  · rintro (rfl | hm)
    · decide
    · unfold timeDigits
      simp only [hm, if_true]
  · intro hz
    unfold dispTime LastTimeDispInit
    rw [hz]
    simp
  · intro h1 h2 heq
    have hle : ¬ (6000000 ≤ m) := by omega
    have hmod : (m + 999) % UL = m + 999 :=
      Nat.mod_eq_of_lt (by unfold UL; omega)
    unfold timeDigits at heq
    simp only [hle, if_false, hmod, List.cons.injEq, and_true] at heq
    omega

/-- Witness for C10 at `m = 6000000` (zero pattern, write suppressed) and
`m = 5000` (nonzero pattern). -/
theorem dispTime_zero_pattern_witness :
    timeDigits 6000000 = [0, 0, 0, 0] ∧
    (dispTime 6000000 LastTimeDispInit).written = none ∧
    timeDigits 5000 ≠ [0, 0, 0, 0] :=
  ⟨(dispTime_first_call_zero_pattern_suppressed 6000000).1
     (Or.inr (by decide)),
   (dispTime_first_call_zero_pattern_suppressed 6000000).2.1
     ((dispTime_first_call_zero_pattern_suppressed 6000000).1
       (Or.inr (by decide))),
   (dispTime_first_call_zero_pattern_suppressed 5000).2.2
     (by decide) (by decide)⟩

/-! ### Control-loop helper lemmas -/

/-- `applyTransition` never touches `debugTimeMult`. -/
lemma applyTransition_debugTimeMult (s : SysState) (ns nowT : Nat) :
    (applyTransition s ns nowT).debugTimeMult = s.debugTimeMult := by
  unfold applyTransition
  split_ifs <;> rfl

/-- No path through the loop body assigns `debugTimeMult`. -/
lemma loop_debugTimeMult (s : SysState) (b : Bool) (m : Nat) :
    (loop s b m).debugTimeMult = s.debugTimeMult := by
  simp only [loop]
  split_ifs <;> simp [applyTransition_debugTimeMult]

/-- `debugTimeMult` is unchanged by any finite run of the loop. -/
lemma runList_debugTimeMult (s : SysState) (inputs : List (Bool × Nat)) :
    (runList s inputs).debugTimeMult = s.debugTimeMult := by
  induction inputs generalizing s with
  | nil => rfl
  | cons i tl ih =>
      exact (ih (loop s i.1 i.2)).trans (loop_debugTimeMult s i.1 i.2)

/-- The invariant holds right after `setup`, for either boot button level. -/
lemma Inv_setup (bootButtonLevel : Bool) : Inv (setup bootButtonLevel) := by
  unfold Inv setup
  refine ⟨?_, fun _ => rfl, ?_, ?_⟩ <;>
    simp [ST_INIT, ST_IDLE, ST_HOLD, ST_RUN]

set_option maxHeartbeats 1000000 in
/-- The invariant is preserved by one execution of the loop body. -/
lemma Inv_loop (s : SysState) (b : Bool) (m : Nat) (h : Inv s) :
    Inv (loop s b m) := by
  obtain ⟨lbr, stop, st, stp, en, disp, mult⟩ := s
  obtain ⟨hle, hinit, hstep, hen⟩ := h
  replace hle : st ≤ 3 := hle
  replace hinit : st = 0 → lbr = false := hinit
  replace hstep : stp = true ↔ st = 3 := hstep
  replace hen : en = false ↔ (st = 2 ∨ st = 3) := hen
  have hcases : st = 0 ∨ st = 1 ∨ st = 2 ∨ st = 3 := by omega
  rcases hcases with h0 | h0 | h0 | h0 <;> subst h0
  · -- Init: the first cycle moves unconditionally to Idle.
    have hl : lbr = false := hinit rfl
    subst hl
    cases b <;>
      simp [Inv, loop, nextState, applyTransition, ST_INIT, ST_IDLE,
        ST_HOLD, ST_RUN]
  · -- Idle: the flag is clear and the enable pin high.
    have hstp : stp = false := by
      cases stp
      · rfl
      · exact absurd (hstep.mp rfl) (by decide)
    have hen1 : en = true := by
      cases en
      · exact absurd (hen.mp rfl) (by decide)
      · rfl
    subst hstp; subst hen1
    cases b <;> cases lbr <;>
      simp [Inv, loop, nextState, applyTransition, ST_INIT, ST_IDLE,
        ST_HOLD, ST_RUN]
  · -- Hold: the flag is clear and the enable pin low.
    have hstp : stp = false := by
      cases stp
      · rfl
      · exact absurd (hstep.mp rfl) (by decide)
    have hen0 : en = false := hen.mpr (Or.inl rfl)
    subst hstp; subst hen0
    cases b <;> cases lbr <;>
      simp [Inv, loop, nextState, applyTransition, ST_INIT, ST_IDLE,
        ST_HOLD, ST_RUN]
  · -- Run: the flag is set and the enable pin low.
    have hstp : stp = true := hstep.mpr rfl
    have hen0 : en = false := hen.mpr (Or.inr rfl)
    subst hstp; subst hen0
    by_cases hts : stop ≤ myMillis m mult <;>
      cases b <;> cases lbr <;>
        simp [Inv, loop, nextState, applyTransition, ST_INIT, ST_IDLE,
          ST_HOLD, ST_RUN, hts]

/-- The invariant holds after any finite run of the loop. -/
lemma Inv_runList (s : SysState) (inputs : List (Bool × Nat)) (h : Inv s) :
    Inv (runList s inputs) := by
  induction inputs generalizing s with
  | nil => exact h
  | cons i tl ih => exact ih (loop s i.1 i.2) (Inv_loop s i.1 i.2 h)

/-- Every reachable state satisfies the invariant. -/
lemma Inv_reachable (s : SysState) (h : Reachable s) : Inv s := by
  obtain ⟨lvl, inputs, rfl⟩ := h
  exact Inv_runList _ inputs (Inv_setup lvl)

/-- Reachability is closed under one more loop cycle. -/
lemma Reachable_loop (s : SysState) (b : Bool) (m : Nat)
    (h : Reachable s) : Reachable (loop s b m) := by
  obtain ⟨lvl, inputs, rfl⟩ := h
  exact ⟨lvl, inputs ++ [(b, m)], by simp [runList, List.foldl_append]⟩

/-- While in Run with the deadline not yet reached and no press-edge this
cycle (any reading is allowed — including a still-held button — as long as a
low reading does not follow a stored high one), the loop body stays in Run
and keeps `stopTime`. -/
lemma loop_stay_in_run (s : SysState) (b : Bool) (m : Nat)
    (hst : s.state = ST_RUN)
    (hnp : (!b && s.lastButtonReading) = false)
    (hlt : myMillis m s.debugTimeMult < s.stopTime) :
    (loop s b m).state = ST_RUN ∧
    (loop s b m).stopTime = s.stopTime ∧
    (loop s b m).lastButtonReading = b := by
  have hns : ¬ (s.stopTime ≤ myMillis m s.debugTimeMult) := not_le.mpr hlt
  simp [loop, nextState, hst, hns, hnp, ST_RUN, ST_INIT, ST_IDLE, ST_HOLD]

/-- A press-edge while in Hold enters Run and arms
`stopTime = myMillis() + MAX_DURATION_MSEC` (in `unsigned long`). -/
lemma loop_hold_to_run (s : SysState) (m : Nat) (hst : s.state = ST_HOLD)
    (hlast : s.lastButtonReading = true) :
    (loop s false m).state = ST_RUN ∧
    (loop s false m).stopTime
      = (myMillis m s.debugTimeMult + MAX_DURATION_MSEC) % UL ∧
    (loop s false m).lastButtonReading = false := by
  simp [loop, nextState, applyTransition, hst, hlast, ST_RUN, ST_INIT,
    ST_IDLE, ST_HOLD]

/-- Once the logical clock reaches `stopTime`, a Run cycle exits to Idle. -/
lemma loop_run_to_idle (s : SysState) (b : Bool) (m : Nat)
    (hst : s.state = ST_RUN)
    (hge : s.stopTime ≤ myMillis m s.debugTimeMult) :
    (loop s b m).state = ST_IDLE := by
  simp [loop, nextState, applyTransition, hst, hge, ST_RUN, ST_INIT,
    ST_IDLE, ST_HOLD]

/-! ### State-machine claims -/

/-- C2: in every reachable state in which a press-edge can be observed
(stored reading high, current reading low), one loop body execution moves
the state exactly one step along `Idle → Hold → Run → Idle`: the state
before the edge is one of the three operational states, the new state is its
cycle successor, and that successor differs from it — a single transition
per control cycle. -/
theorem press_edge_advances_one_step (s : SysState) (m : Nat)
    (hreach : Reachable s) (hlast : s.lastButtonReading = true) :
    (s.state = ST_IDLE ∨ s.state = ST_HOLD ∨ s.state = ST_RUN) ∧
    (loop s false m).state = cycleNext s.state ∧
    cycleNext s.state ≠ s.state := by
  obtain ⟨hle, hinit, -, -⟩ := Inv_reachable s hreach
  have hmem : s.state = 1 ∨ s.state = 2 ∨ s.state = 3 := by
    by_cases h0 : s.state = 0
    · rw [hinit h0] at hlast
      exact absurd hlast (by simp)
    · omega
  refine ⟨by simpa [ST_IDLE, ST_HOLD, ST_RUN] using hmem, ?_, ?_⟩
  · rcases hmem with h0 | h0 | h0 <;>
      simp [loop, nextState, applyTransition, cycleNext, hlast, h0,
        ST_INIT, ST_IDLE, ST_HOLD, ST_RUN]
  · rcases hmem with h0 | h0 | h0 <;>
      simp [cycleNext, h0, ST_IDLE, ST_HOLD, ST_RUN]

/-- Witness for C2: after one cycle with the button released the system sits
in Idle with a stored high reading; a press-edge then advances it to Hold. -/
theorem press_edge_advances_one_step_witness :
    ((runList (setup true) [(true, 0)]).state = ST_IDLE ∨
     (runList (setup true) [(true, 0)]).state = ST_HOLD ∨
     (runList (setup true) [(true, 0)]).state = ST_RUN) ∧
    (loop (runList (setup true) [(true, 0)]) false 0).state
      = cycleNext (runList (setup true) [(true, 0)]).state ∧
    cycleNext (runList (setup true) [(true, 0)]).state
      ≠ (runList (setup true) [(true, 0)]).state :=
  press_edge_advances_one_step (runList (setup true) [(true, 0)]) 0
    ⟨true, [(true, 0)], rfl⟩ (by decide)

/-- C3: in every reachable state the shared flag `steppingOn` is true if and
only if the drive state is Run, and the same holds again after one more loop
cycle — so every transition into Run sets it and every transition into Idle
or Hold clears it. -/
theorem steppingOn_iff_run (s : SysState) (b : Bool) (m : Nat)
    (hreach : Reachable s) :
    (s.steppingOn = true ↔ s.state = ST_RUN) ∧
    ((loop s b m).steppingOn = true ↔ (loop s b m).state = ST_RUN) :=
  ⟨(Inv_reachable s hreach).2.2.1,
   (Inv_reachable (loop s b m) (Reachable_loop s b m hreach)).2.2.1⟩

/-- Witness for C3 at a reachable Idle state stepped with a press-edge. -/
theorem steppingOn_iff_run_witness :
    ((runList (setup true) [(true, 0)]).steppingOn = true ↔
      (runList (setup true) [(true, 0)]).state = ST_RUN) ∧
    ((loop (runList (setup true) [(true, 0)]) false 0).steppingOn = true ↔
      (loop (runList (setup true) [(true, 0)]) false 0).state = ST_RUN) :=
  steppingOn_iff_run (runList (setup true) [(true, 0)]) false 0
    ⟨true, [(true, 0)], rfl⟩

/-- C8: `setup` drives the active-low motor-driver enable pin HIGH
(motor de-energized at power-up), and in every reachable state the pin is
LOW — the motor energized — exactly when the drive state is Hold or Run. -/
theorem motor_energized_iff_hold_or_run (s : SysState)
    (hreach : Reachable s) :
    (∀ lvl : Bool, (setup lvl).stepperEnableHigh = true) ∧
    (s.stepperEnableHigh = false ↔
      (s.state = ST_HOLD ∨ s.state = ST_RUN)) :=
  ⟨fun _ => rfl, (Inv_reachable s hreach).2.2.2⟩

/-- Witness for C8 at a reachable Hold state (motor energized). -/
theorem motor_energized_iff_hold_or_run_witness :
    (∀ lvl : Bool, (setup lvl).stepperEnableHigh = true) ∧
    ((runList (setup true) [(true, 0), (false, 0)]).stepperEnableHigh = false
      ↔ ((runList (setup true) [(true, 0), (false, 0)]).state = ST_HOLD ∨
         (runList (setup true) [(true, 0), (false, 0)]).state = ST_RUN)) :=
  motor_energized_iff_hold_or_run (runList (setup true) [(true, 0), (false, 0)])
    ⟨true, [(true, 0), (false, 0)], rfl⟩

/-- C9: the time-acceleration multiplier is fixed during `setup` from the
button's raw boot level — 60 when the button reads low (pressed), 1
otherwise — and neither a single loop cycle nor any finite run of the loop
ever changes it. -/
theorem debugTimeMult_fixed_at_boot (lvl : Bool) (s : SysState) (b : Bool)
    (m : Nat) (inputs : List (Bool × Nat)) :
    (setup lvl).debugTimeMult = (if lvl = false then 60 else 1) ∧
    (loop s b m).debugTimeMult = s.debugTimeMult ∧
    (runList s inputs).debugTimeMult = s.debugTimeMult :=
  ⟨rfl, loop_debugTimeMult s b m, runList_debugTimeMult s inputs⟩

/-! ### Time-source claim -/

/-- C7: within the no-overflow horizon `myMillis` returns exactly the raw
`millis()` reading multiplied by the acceleration factor, and is monotone
non-decreasing when the underlying clock is non-decreasing and the
multiplier constant.  (`myMillis` is embedded as a pure function: it has no
side effects.) -/
theorem myMillis_exact_and_monotone (mult : Nat) :
    (∀ ms, ms * mult < UL → myMillis ms mult = ms * mult) ∧
    (∀ ms1 ms2, ms1 ≤ ms2 → ms2 * mult < UL →
      myMillis ms1 mult ≤ myMillis ms2 mult) := by
  constructor
  · intro ms h
    unfold myMillis
    exact Nat.mod_eq_of_lt h
  · intro ms1 ms2 h12 h2
    have h1 : ms1 * mult ≤ ms2 * mult := Nat.mul_le_mul_right mult h12
    unfold myMillis
    rw [Nat.mod_eq_of_lt (lt_of_le_of_lt h1 h2), Nat.mod_eq_of_lt h2]
    exact h1

/-! ### Run-duration claim -/

set_option maxHeartbeats 1000000 in
/-- C4: from a Hold state with a press-edge on cycle 0 and no later
press-edge — later cycles may read the button low (still held) or high, as
long as no low reading follows a high one — the machine enters Run on
cycle 0 at logical time `t0` and arms `stopTime = t0 + 3000000`; it stays in
Run on every cycle whose logical time is below the deadline, and the
automatic Run→Idle transition fires on the first cycle `j` whose logical
time reaches it — at a logical time at least `t0 + 3000000` and, when
consecutive cycle times differ by at most the cycle period `T`, strictly
below `t0 + 3000000 + T`. -/
theorem run_duration_guarantee (s : SysState) (f : Nat → Bool × Nat) (T : Nat)
    (hstate : s.state = ST_HOLD) (hlast : s.lastButtonReading = true)
    (hpress : (f 0).1 = false)
    (hnopress : ∀ i, ¬ ((f (i + 1)).1 = false ∧ (f i).1 = true))
    (hmono : ∀ i, myMillis (f i).2 s.debugTimeMult
      ≤ myMillis (f (i + 1)).2 s.debugTimeMult)
    (hgap : ∀ i, myMillis (f (i + 1)).2 s.debugTimeMult
      ≤ myMillis (f i).2 s.debugTimeMult + T)
    (hovf : myMillis (f 0).2 s.debugTimeMult + MAX_DURATION_MSEC < UL)
    (hlive : ∃ N, myMillis (f 0).2 s.debugTimeMult + MAX_DURATION_MSEC
      ≤ myMillis (f N).2 s.debugTimeMult) :
    (iterate s f 1).state = ST_RUN ∧
    (iterate s f 1).stopTime
      = myMillis (f 0).2 s.debugTimeMult + MAX_DURATION_MSEC ∧
    ∃ j, 1 ≤ j ∧
      (∀ i, 1 ≤ i → i ≤ j → (iterate s f i).state = ST_RUN) ∧
      (iterate s f (j + 1)).state = ST_IDLE ∧
      myMillis (f 0).2 s.debugTimeMult + MAX_DURATION_MSEC
        ≤ myMillis (f j).2 s.debugTimeMult ∧
      myMillis (f j).2 s.debugTimeMult
        < myMillis (f 0).2 s.debugTimeMult + MAX_DURATION_MSEC + T := by
  have hmult : ∀ n, (iterate s f n).debugTimeMult = s.debugTimeMult := by
    intro n
    induction n with
    | zero => rfl
    | succ k ih =>
        show (loop (iterate s f k) (f k).1 (f k).2).debugTimeMult
          = s.debugTimeMult
        rw [loop_debugTimeMult, ih]
  have h0run := loop_hold_to_run s (f 0).2 hstate hlast
  have hstep1 : iterate s f 1 = loop s (f 0).1 (f 0).2 := rfl
  rw [hpress] at hstep1
  have h1state : (iterate s f 1).state = ST_RUN := by
    rw [hstep1]; exact h0run.1
  have h1stop : (iterate s f 1).stopTime
      = myMillis (f 0).2 s.debugTimeMult + MAX_DURATION_MSEC := by
    rw [hstep1, h0run.2.1]
    exact Nat.mod_eq_of_lt hovf
  have hMpos : 0 < MAX_DURATION_MSEC := by decide
  have hjspec := Nat.find_spec hlive
  have hjmin : ∀ i, i < Nat.find hlive →
      ¬ (myMillis (f 0).2 s.debugTimeMult + MAX_DURATION_MSEC
        ≤ myMillis (f i).2 s.debugTimeMult) :=
    fun i hi => Nat.find_min hlive hi
  have hjpos : 1 ≤ Nat.find hlive := by
    by_contra hc
    have hj0 : Nat.find hlive = 0 := by omega
    rw [hj0] at hjspec
    omega
  have h1last : (iterate s f 1).lastButtonReading = (f 0).1 := by
    rw [hstep1, hpress]
    exact h0run.2.2
  have hrun : ∀ k, k + 1 ≤ Nat.find hlive →
      (iterate s f (k + 1)).state = ST_RUN ∧
      (iterate s f (k + 1)).stopTime
        = myMillis (f 0).2 s.debugTimeMult + MAX_DURATION_MSEC ∧
      (iterate s f (k + 1)).lastButtonReading = (f k).1 := by
    intro k
    induction k with
    | zero => exact fun _ => ⟨h1state, h1stop, h1last⟩
    | succ n ih =>
        intro hk
        obtain ⟨hst, hsp, hlb⟩ := ih (by omega)
        have hnp : (!(f (n + 1)).1 &&
            (iterate s f (n + 1)).lastButtonReading) = false := by
          rw [hlb]
          have h := hnopress n
          cases hb1 : (f (n + 1)).1 <;> cases hb0 : (f n).1 <;> simp_all
        have hlt : myMillis (f (n + 1)).2
            (iterate s f (n + 1)).debugTimeMult
            < (iterate s f (n + 1)).stopTime := by
          rw [hmult, hsp]
          have := hjmin (n + 1) (by omega)
          omega
        have hstay := loop_stay_in_run (iterate s f (n + 1)) (f (n + 1)).1
          (f (n + 1)).2 hst hnp hlt
        exact ⟨hstay.1, hstay.2.1.trans hsp, hstay.2.2⟩
  obtain ⟨k0, hk0⟩ : ∃ k, Nat.find hlive = k + 1 :=
    ⟨Nat.find hlive - 1, by omega⟩
  refine ⟨h1state, h1stop, Nat.find hlive, hjpos, ?_, ?_, hjspec, ?_⟩
  · intro i h1i hij
    obtain ⟨k, rfl⟩ : ∃ k, i = k + 1 := ⟨i - 1, by omega⟩
    exact (hrun k hij).1
  · obtain ⟨hst, hsp, -⟩ := hrun k0 (by omega)
    have hjs := hjspec
    rw [hk0] at hjs
    have hge : (iterate s f (k0 + 1)).stopTime
        ≤ myMillis (f (k0 + 1)).2 (iterate s f (k0 + 1)).debugTimeMult := by
      rw [hmult, hsp]
      exact hjs
    have hidle := loop_run_to_idle (iterate s f (k0 + 1))
      (f (k0 + 1)).1 (f (k0 + 1)).2 hst hge
    rw [hk0]
    exact hidle
  · have hnk := hjmin k0 (by omega)
    have hg := hgap k0
    rw [hk0]
    omega

/-- Witness for C4: from the concrete Hold state, the press at raw time 0
starts a Run armed to stop at logical time 3000000; the button stays held
through cycle 1 without producing a new edge, and once the raw clock
reaches 4000000 the machine exits to Idle inside the stated window. -/
theorem run_duration_guarantee_witness :
    (iterate holdDemoState demoInputs 1).state = ST_RUN ∧
    (iterate holdDemoState demoInputs 1).stopTime
      = myMillis (demoInputs 0).2 holdDemoState.debugTimeMult
        + MAX_DURATION_MSEC ∧
    ∃ j, 1 ≤ j ∧
      (∀ i, 1 ≤ i → i ≤ j →
        (iterate holdDemoState demoInputs i).state = ST_RUN) ∧
      (iterate holdDemoState demoInputs (j + 1)).state = ST_IDLE ∧
      myMillis (demoInputs 0).2 holdDemoState.debugTimeMult
          + MAX_DURATION_MSEC
        ≤ myMillis (demoInputs j).2 holdDemoState.debugTimeMult ∧
      myMillis (demoInputs j).2 holdDemoState.debugTimeMult
        < myMillis (demoInputs 0).2 holdDemoState.debugTimeMult
          + MAX_DURATION_MSEC + 4000000 :=
  run_duration_guarantee holdDemoState demoInputs 4000000 rfl rfl rfl
    (fun i => by
      rcases i with _ | (_ | k)
      · decide
      · decide
      · exact fun h => Bool.noConfusion h.1)
    (fun i => by
      rcases i with _ | (_ | k)
      · decide
      · decide
      · exact Nat.le_refl _)
    (fun i => by
      rcases i with _ | (_ | k)
      · decide
      · decide
      · exact Nat.le_add_right _ _)
    (by decide)
    ⟨2, by decide⟩

/-- Witness for C7 in 60x mode at raw readings 500 and 1000 ms. -/
theorem myMillis_exact_and_monotone_witness :
    myMillis 1000 60 = 1000 * 60 ∧ myMillis 500 60 ≤ myMillis 1000 60 :=
  ⟨(myMillis_exact_and_monotone 60).1 1000 (by decide),
   (myMillis_exact_and_monotone 60).2 500 1000 (by decide) (by decide)⟩

end Orion
